import Mathlib

/-!
Verification of the url-uploader bot (Rust sources `src/command.rs`,
`src/bot.rs`, `src/main.rs`) against its natural-language specification.

The embedding models:
- `parse_command` from `src/command.rs` (pure string parsing, over `List Char`);
- the message-routing logic of `Bot::handle_message` in `src/bot.rs`;
- the shared bot state (`locks : DashSet<i64>`, `started_by : DashMap<i64,i64>`,
  `triggers : DashMap<i64, Trigger>`) as association lists over `Int`, with the
  atomic map operations of the dashmap crate as the interleaving units;
- `Bot::handle_url` as a state-transforming function parameterised over the
  outcomes of its external effects (HTTP response, percent-decoding, Telegram
  calls), emitting a trace of observable events;
- `Bot::handle_cancel` as a state-transforming function;
- the streaming relay (`upload_stream` consuming the `report_progress`-wrapped
  byte stream) as a fine-grained event trace in which each chunk is first
  delivered to the sink's read and the progress counter is advanced afterwards,
  matching the wrapper's accounting at each completed read.
-/

namespace Uploader

/-! ## Definitions: `src/command.rs` -/

/-- A parsed bot command, mirroring `struct Command` in `src/command.rs`.
Strings are modelled as `List Char`. -/
structure Command where
  name : List Char
  via : Option (List Char)
  arg : Option (List Char)
deriving DecidableEq, Repr

/-- Rust's `str::splitn(2, sep)` restricted to the two uses in
`parse_command`: the part before the first separator, and, when a separator
occurs, the remainder after it. -/
def splitn2 (sep : Char) : List Char → List Char × Option (List Char)
  | [] => ([], none)
  | c :: cs =>
      if c = sep then ([], some cs)
      else
        let p := splitn2 sep cs
        (c :: p.1, p.2)

/-- `parse_command` from `src/command.rs`: a command must start with a slash;
the rest is split at the first space into head and argument, and the head is
split at the first `@` into name and addressee. -/
def parse_command (text : List Char) : Option Command :=
  match text with
  | '/' :: rest =>
      let p := splitn2 ' ' rest
      let q := splitn2 '@' p.1
      some { name := q.1, via := q.2, arg := p.2 }
  | _ => none

/-! Spec-side reformulation of C9 ("the command name is the text between the
slash and the first space, further split at the first `@` into name and via;
arg is the remainder after the first space"), stated with
`takeWhile`/`dropWhile` to be compared with the source-derived
`parse_command`. -/

/-- Spec wording: the text between the slash and the first space. -/
def specHead (rest : List Char) : List Char :=
  rest.takeWhile (fun c => c != ' ')

/-- Spec wording: the remainder after the first space, `none` when there is no
space. -/
def specArg (rest : List Char) : Option (List Char) :=
  if (' ' : Char) ∈ rest then some ((rest.dropWhile (fun c => c != ' ')).tail)
  else none

/-- Spec wording: the head further cut at the first `@`. -/
def specName (rest : List Char) : List Char :=
  (specHead rest).takeWhile (fun c => c != '@')

/-- Spec wording: the part of the head after the first `@`, `none` when there
is no `@`. -/
def specVia (rest : List Char) : Option (List Char) :=
  if ('@' : Char) ∈ specHead rest then
    some (((specHead rest).dropWhile (fun c => c != '@')).tail)
  else none

/-! ## Definitions: message routing (`Bot::handle_message`, bot.rs:87–135)

The grammers `Chat` enum has the variants `User`, `Group`, `Channel`; the
handler returns early on anything but `User`/`Group`. `Url::parse` of the
reqwest/url crate is an external collaborator and is abstracted as a boolean
oracle `isUrl`; the bot's own username (`self.me.username()`) is a parameter.
The observable result is which handler the message is dispatched to. -/

/-- The chat variants of grammers' `Chat` enum. -/
inductive ChatKind
  | user
  | group
  | channel
deriving DecidableEq, Repr

/-- The dispatch outcome of `Bot::handle_message`: nothing, the `/start`
reply, the `/upload` error replies, or `Bot::handle_url` on a URL. -/
inductive Action
  | nop
  | startReply
  | uploadMissingArg
  | uploadInvalidUrl
  | doUpload (url : List Char)
deriving DecidableEq, Repr

/-- Rust `str::to_lowercase`, modelled characterwise. -/
def lowerStr (s : List Char) : List Char := s.map Char.toLower

/-- The addressee check of bot.rs:98–103: a command carrying `@via` is ignored
unless `via` equals the bot's username case-insensitively (a missing username
is the empty string, `unwrap_or_default`). -/
def viaMismatch (me : Option (List Char)) (cmd : Command) : Bool :=
  match cmd.via with
  | some via => lowerStr via != lowerStr (me.getD [])
  | none => false

/-- `Bot::handle_upload` (bot.rs:157–177): missing argument and unparsable
URL produce error replies, otherwise the URL is handled. -/
def handle_upload (isUrl : List Char → Bool) (cmd : Command) : Action :=
  match cmd.arg with
  | none => Action.uploadMissingArg
  | some url => if isUrl url then Action.doUpload url else Action.uploadInvalidUrl

/-- The fallthrough of bot.rs:127–132: only in a user chat, a message that
parses as a URL is handled as an upload. -/
def urlFallback (isUrl : List Char → Bool) (chat : ChatKind)
    (text : List Char) : Action :=
  if chat = ChatKind.user then
    if isUrl text then Action.doUpload text else Action.nop
  else Action.nop

/-- `Bot::handle_message` (bot.rs:87–135): non-user/group chats are ignored;
a parsed command is checked for addressee and the group `/start` guard, then
dispatched on its name, unrecognized names falling through to the URL check;
a non-command falls through to the URL check. -/
def handle_message (me : Option (List Char)) (isUrl : List Char → Bool)
    (chat : ChatKind) (text : List Char) : Action :=
  match chat with
  | ChatKind.channel => Action.nop
  | _ =>
    match parse_command text with
    | some cmd =>
        if viaMismatch me cmd then Action.nop
        else if chat = ChatKind.group ∧ cmd.name = ("start").toList
            ∧ cmd.via = none then Action.nop
        else if cmd.name = ("start").toList then Action.startReply
        else if cmd.name = ("upload").toList then handle_upload isUrl cmd
        else urlFallback isUrl chat text
    | none => urlFallback isUrl chat text

/-! ## Definitions: shared bot state (fields of `struct Bot`, bot.rs:24–31)

`locks : DashSet<i64>` is modelled as a list of chat ids without duplicates,
`started_by : DashMap<i64,i64>` and `triggers : DashMap<i64, Trigger>` as
association lists with unique keys. Each dashmap operation (`insert`,
`remove`, `get`) is atomic in the source, so an interleaving of concurrent
tasks is a sequence of these operations. A `Trigger` is opaque; only its
presence matters, so it is modelled as `Unit`. -/

/-- First value bound to `key`, mirroring `DashMap::get`. -/
def lookupA {α : Type} : List (Int × α) → Int → Option α
  | [], _ => none
  | (k, v) :: rest, key => if k = key then some v else lookupA rest key

/-- Remove every binding of `key`, mirroring `DashMap::remove` on a
unique-key map. -/
def removeA {α : Type} : List (Int × α) → Int → List (Int × α)
  | [], _ => []
  | (k, v) :: rest, key =>
      if k = key then removeA rest key else (k, v) :: removeA rest key

/-- Insert / overwrite a binding, mirroring `DashMap::insert`. -/
def insertA {α : Type} (m : List (Int × α)) (key : Int) (v : α) :
    List (Int × α) :=
  (key, v) :: removeA m key

/-- `DashSet::insert`: returns the unchanged set and `false` when the element
was already present, otherwise the grown set and `true`. -/
def setInsert (s : List Int) (x : Int) : List Int × Bool :=
  if x ∈ s then (s, false) else (x :: s, true)

/-- `DashSet::remove`. -/
def setRemove : List Int → Int → List Int
  | [], _ => []
  | y :: rest, x => if y = x then setRemove rest x else y :: setRemove rest x

/-- The shared state of `struct Bot`: the chat-lock set, the chat → initiator
map, and the chat → cancellation-trigger map. -/
structure BotState where
  locks : List Int
  started_by : List (Int × Int)
  triggers : List (Int × Unit)
deriving DecidableEq, Repr

/-- The lock-acquisition step of `Bot::handle_url` (bot.rs:189–195): the
atomic `locks.insert(chat)`; on success the initiator is recorded in
`started_by`, on failure nothing is touched and the caller replies Busy. -/
def acquire (s : BotState) (chat owner : Int) : BotState × Bool :=
  let p := setInsert s.locks chat
  if p.2 then
    ({ s with locks := p.1, started_by := insertA s.started_by chat owner }, true)
  else (s, false)

/-- The deferred unlock of `Bot::handle_url` (bot.rs:198–202):
`locks.remove(chat)` and `started_by.remove(chat)`. -/
def release (s : BotState) (chat : Int) : BotState :=
  { s with locks := setRemove s.locks chat,
           started_by := removeA s.started_by chat }

/-- A race of acquisition attempts on one chat: an arbitrary interleaving of
the atomic `locks.insert` calls of concurrently spawned `handle_url` tasks,
given by the serialization order dashmap assigns them. Returns the final
state and each attempt's success flag in order. -/
def raceAcquire (s : BotState) (chat : Int) : List Int → BotState × List Bool
  | [] => (s, [])
  | o :: os =>
      let p := acquire s chat o
      let q := raceAcquire p.1 chat os
      (q.1, p.2 :: q.2)

/-! ## Definitions: `Bot::handle_url` (bot.rs:181–364)

The function is deterministic given the outcomes of its external effects,
collected in `Env`: the HTTP response (`None` models a failed `send()`), the
success of the percent-decoding of the file name (bot.rs:247–249, which runs
before the length checks), and the success of the Telegram calls (status
message, `upload_stream`, final replies). Filename and MIME guessing are
external collaborators per the spec and do not influence any claim. The
observable behaviour is the final state plus an event trace. -/

/-- The size ceiling of bot.rs:271: `2 * 1024 * 1024 * 1024` bytes. -/
def sizeLimit : Nat := 2 * 1024 * 1024 * 1024

/-- Observable events of the handlers. -/
inductive Event
  | replyBusy (chat : Int)
  | replyEmpty (chat : Int)
  | replyTooLarge (chat : Int)
  | chunk (n : Nat)
  | replyDone (chat : Int)
  | removeTrigger (chat : Int)
  | unlock (chat : Int)
  | fireTrigger (chat : Int)
  | alertUnauthorized (chat requester : Int)
  | editCancelled (chat : Int)
  | answerCallback (chat : Int)
deriving DecidableEq, Repr

/-- The parts of the HTTP response `handle_url` consumes: the value of the
`content-length` header (`none` when absent, bot.rs:208 defaults it to 0) and
the sizes of the chunks of the body stream. -/
structure HttpResponse where
  contentLength : Option Nat
  chunks : List Nat
deriving DecidableEq, Repr

/-- Outcomes of the external effects of one `handle_url` run. `uploaded` is
the number of body chunks the sink consumed before an upload error. -/
structure Env where
  response : Option HttpResponse
  decodeOk : Bool
  statusOk : Bool
  uploadOk : Bool
  uploaded : Nat
  finalOk : Bool
deriving DecidableEq, Repr

/-- The exit path taken by `handle_url`. -/
inductive UrlOutcome
  | noSender
  | busy
  | fetchError
  | decodeError
  | rejectedEmpty
  | rejectedTooLarge
  | statusError
  | uploadError
  | finalError
  | success
deriving DecidableEq, Repr

/-- Whether an event is a transferred body chunk. -/
def isChunk : Event → Bool
  | Event.chunk _ => true
  | _ => false

/-- The body of `handle_url` between the deferred unlock (bot.rs:198) and
scope exit: HTTP fetch, length and name negotiation, the empty / too-large
checks (bot.rs:265–274), trigger registration (bot.rs:282), status message
and upload. Returns the state, the exit path, the events, and whether the
trigger-removal defer (bot.rs:285–287) was registered. -/
def urlBody (s : BotState) (chat : Int) (env : Env) :
    BotState × UrlOutcome × List Event × Bool :=
  match env.response with
  | none => (s, UrlOutcome.fetchError, [], false)
  | some r =>
      if env.decodeOk = false then (s, UrlOutcome.decodeError, [], false)
      else
        let length := r.contentLength.getD 0
        if length = 0 then
          (s, UrlOutcome.rejectedEmpty, [Event.replyEmpty chat], false)
        else if sizeLimit < length then
          (s, UrlOutcome.rejectedTooLarge, [Event.replyTooLarge chat], false)
        else
          let s2 : BotState := { s with triggers := insertA s.triggers chat () }
          if env.statusOk = false then (s2, UrlOutcome.statusError, [], true)
          else if env.uploadOk = false then
            (s2, UrlOutcome.uploadError,
              (r.chunks.take env.uploaded).map Event.chunk, true)
          else if env.finalOk = false then
            (s2, UrlOutcome.finalError, r.chunks.map Event.chunk, true)
          else
            (s2, UrlOutcome.success,
              r.chunks.map Event.chunk ++ [Event.replyDone chat], true)

/-- `Bot::handle_url` (bot.rs:181–364): no-op without a sender; the atomic
lock insert with a Busy reply on failure; then the body, followed by the
deferred cleanups in reverse registration order — trigger removal
(bot.rs:285–287) when registered, then the unlock (bot.rs:198–202). -/
def handle_url (s : BotState) (chat : Int) (sender : Option Int) (env : Env) :
    BotState × UrlOutcome × List Event :=
  match sender with
  | none => (s, UrlOutcome.noSender, [])
  | some senderId =>
      let p := acquire s chat senderId
      if p.2 = false then (s, UrlOutcome.busy, [Event.replyBusy chat])
      else
        let b := urlBody p.1 chat env
        let s2 : BotState :=
          if b.2.2.2 then { b.1 with triggers := removeA b.1.triggers chat }
          else b.1
        (release s2 chat, b.2.1,
          b.2.2.1 ++ (if b.2.2.2 then [Event.removeTrigger chat] else [])
            ++ [Event.unlock chat])

/-! ## Definitions: `Bot::handle_cancel` (bot.rs:375–412) -/

/-- The exit path taken by `handle_cancel`: no recorded initiator, a
non-owner requester, a fired cancellation, or an owner request that found no
trigger registered. -/
inductive CancelOutcome
  | notFound
  | unauthorized
  | cancelled
  | noTrigger
deriving DecidableEq, Repr

/-- `Bot::handle_cancel` (bot.rs:375–412): look up the initiator of the
chat's transfer (absent → silent return); a different requester gets an
ephemeral alert and nothing changes; otherwise `triggers.remove` fires the
trigger by dropping it, the initiator record is removed, the status message
is edited and the callback answered. -/
def handle_cancel (s : BotState) (chat requester : Int) :
    BotState × CancelOutcome × List Event :=
  match lookupA s.started_by chat with
  | none => (s, CancelOutcome.notFound, [])
  | some owner =>
      if owner ≠ requester then
        (s, CancelOutcome.unauthorized, [Event.alertUnauthorized chat requester])
      else
        match lookupA s.triggers chat with
        | some _ =>
            ({ s with triggers := removeA s.triggers chat,
                      started_by := removeA s.started_by chat },
             CancelOutcome.cancelled,
             [Event.fireTrigger chat, Event.editCancelled chat,
              Event.answerCallback chat])
        | none => (s, CancelOutcome.noTrigger, [])

/-! ## Definitions: the streaming relay

`upload_stream` (bot.rs:334–337) reads the body through the
`report_progress` wrapper (bot.rs:304–330). The wrapper advances its byte
counter when a read completes, i.e. after the chunk has been handed to the
sink's read call; the relay of one body is therefore the trace in which each
chunk's delivery precedes the counter advance for that chunk. Observation
points are the prefixes of the trace. -/

/-- One step of the relay: a chunk of `n` bytes handed to the sink, or the
progress counter advanced by `n`. -/
inductive RelayEvent
  | deliver (n : Nat)
  | advance (n : Nat)
deriving DecidableEq, Repr

/-- The relay trace of a body with the given chunk sizes: each chunk is
delivered, then counted. -/
def relayTrace : List Nat → List RelayEvent
  | [] => []
  | n :: rest => RelayEvent.deliver n :: RelayEvent.advance n :: relayTrace rest

/-- Bytes delivered to the sink within a trace. -/
def deliveredAt : List RelayEvent → Nat
  | [] => 0
  | RelayEvent.deliver n :: rest => n + deliveredAt rest
  | RelayEvent.advance _ :: rest => deliveredAt rest

/-- The progress counter's value after a trace. -/
def counterAt : List RelayEvent → Nat
  | [] => 0
  | RelayEvent.deliver _ :: rest => counterAt rest
  | RelayEvent.advance n :: rest => n + counterAt rest

/-! ## Theorems -/

theorem splitn2_eq (sep : Char) (l : List Char) :
    splitn2 sep l =
      (l.takeWhile (fun c => c != sep),
        if sep ∈ l then some ((l.dropWhile (fun c => c != sep)).tail)
        else none) := by
  induction l with
  | nil => simp [splitn2]
  | cons c cs ih =>
      by_cases h : c = sep
      · subst h
        simp [splitn2]
      · have h2 : (c != sep) = true := by simp [h]
        simp only [splitn2, ih, List.takeWhile_cons, List.dropWhile_cons, h2,
          if_true, List.mem_cons]
        have h3 : ¬ sep = c := fun hc => h hc.symm
        simp [h3, h]

/-- C9: `parse_command` succeeds exactly on strings starting with `/`, and on
`/` followed by `rest` it returns the name, via and arg described by the spec:
name is the text between the slash and the first space cut at the first `@`,
via is what follows that `@` (or `none`), arg is what follows the first space
(or `none`). -/
theorem parse_command_correct (text : List Char) :
    ((parse_command text).isSome ↔ text.head? = some '/')
    ∧ (∀ rest, parse_command ('/' :: rest) =
        some { name := specName rest, via := specVia rest, arg := specArg rest }) := by
  constructor
  · cases text with
    | nil => simp [parse_command]
    | cons c rest =>
        by_cases h : c = '/'
        · subst h; simp [parse_command]
        · constructor
          · intro hs
            exfalso
            cases c
            simp_all [parse_command]
          · intro hh
            simp at hh
            exact absurd hh h
  · intro rest
    show some _ = some _
    have hp := splitn2_eq ' ' rest
    have hq := splitn2_eq '@' (rest.takeWhile (fun c => c != ' '))
    simp only [parse_command, hp, hq]
    simp [specName, specVia, specArg, specHead]

theorem acquire_locked (s : BotState) (chat owner : Int)
    (h : chat ∈ s.locks) : acquire s chat owner = (s, false) := by
  simp [acquire, setInsert, h]

theorem acquire_mem_locks (s : BotState) (chat owner : Int) :
    chat ∈ (acquire s chat owner).1.locks := by
  by_cases h : chat ∈ s.locks
  · simp [acquire, setInsert, h]
  · simp [acquire, setInsert, h]

theorem raceAcquire_locked (s : BotState) (chat : Int) (os : List Int)
    (h : chat ∈ s.locks) :
    raceAcquire s chat os = (s, List.replicate os.length false) := by
  induction os with
  | nil => simp [raceAcquire]
  | cons o os ih =>
      simp [raceAcquire, acquire_locked s chat o h, ih, List.replicate_succ]

theorem setInsert_nodup (s : List Int) (x : Int) (h : s.Nodup) :
    (setInsert s x).1.Nodup := by
  by_cases hx : x ∈ s
  · simpa [setInsert, hx] using h
  · simpa [setInsert, hx] using List.nodup_cons.mpr ⟨hx, h⟩

theorem raceAcquire_nodup (s : BotState) (chat : Int) (os : List Int)
    (h : s.locks.Nodup) : (raceAcquire s chat os).1.locks.Nodup := by
  induction os generalizing s with
  | nil => simpa [raceAcquire] using h
  | cons o os ih =>
      simp only [raceAcquire]
      apply ih
      by_cases hx : chat ∈ s.locks
      · simpa [acquire, setInsert, hx] using h
      · simpa [acquire, setInsert, hx] using List.nodup_cons.mpr ⟨hx, h⟩

/-- C1: when several transfer requests race on one chat while it is unlocked,
the serialized `locks.insert` calls succeed exactly once — every other
request observes `false` and replies Busy without any state mutation; and the
lock set keeps at most one lock per chat id. -/
theorem acquire_race_exclusive (s : BotState) (chat : Int) (owners : List Int)
    (hfree : chat ∉ s.locks) (hne : owners ≠ [])
    (hnd : s.locks.Nodup) :
    ((raceAcquire s chat owners).2.count true = 1)
    ∧ (∀ t o, chat ∈ t.locks → acquire t chat o = (t, false))
    ∧ (∀ t o env, chat ∈ t.locks →
        handle_url t chat (some o) env = (t, UrlOutcome.busy, [Event.replyBusy chat]))
    ∧ ((raceAcquire s chat owners).1.locks.count chat ≤ 1) := by
  refine ⟨?_, fun t o h => acquire_locked t chat o h,
    fun t o env h => ?_, ?_⟩
  · cases owners with
    | nil => exact absurd rfl hne
    | cons o os =>
        have hacq : (acquire s chat o).2 = true := by
          simp [acquire, setInsert, hfree]
        have hmem := acquire_mem_locks s chat o
        simp [raceAcquire, raceAcquire_locked _ _ _ hmem, hacq,
          List.count_eq_zero]
  · simp [handle_url, acquire_locked t chat o h]
  · have := raceAcquire_nodup s chat owners hnd
    exact List.nodup_iff_count_le_one.1 this chat

theorem lookupA_removeA {α : Type} (m : List (Int × α)) (k : Int) :
    lookupA (removeA m k) k = none := by
  induction m with
  | nil => simp [removeA, lookupA]
  | cons p rest ih =>
      obtain ⟨a, v⟩ := p
      by_cases h : a = k
      · simp [removeA, h, ih]
      · simp [removeA, lookupA, h, ih]

theorem removeA_of_lookupA_none {α : Type} (m : List (Int × α)) (k : Int)
    (h : lookupA m k = none) : removeA m k = m := by
  induction m with
  | nil => simp [removeA]
  | cons p rest ih =>
      obtain ⟨a, v⟩ := p
      by_cases ha : a = k
      · simp [lookupA, ha] at h
      · simp [lookupA, ha] at h
        simp [removeA, ha, ih h]

theorem removeA_idem {α : Type} (m : List (Int × α)) (k : Int) :
    removeA (removeA m k) k = removeA m k :=
  removeA_of_lookupA_none _ _ (lookupA_removeA m k)

theorem setRemove_not_mem (l : List Int) (x : Int) : x ∉ setRemove l x := by
  induction l with
  | nil => simp [setRemove]
  | cons y rest ih =>
      by_cases h : y = x
      · simp [setRemove, h, ih]
      · simp [setRemove, h, ih]
        exact fun hc => h hc.symm

theorem setRemove_of_not_mem (l : List Int) (x : Int) (h : x ∉ l) :
    setRemove l x = l := by
  induction l with
  | nil => simp [setRemove]
  | cons y rest ih =>
      simp at h
      have hne : ¬ y = x := fun hc => h.1 hc.symm
      simp [setRemove, hne, ih h.2]

theorem setRemove_idem (l : List Int) (x : Int) :
    setRemove (setRemove l x) x = setRemove l x :=
  setRemove_of_not_mem _ _ (setRemove_not_mem l x)

theorem urlBody_spec (t : BotState) (c : Int) (env : Env) :
    ((urlBody t c env).1.locks = t.locks)
    ∧ ((urlBody t c env).1.started_by = t.started_by)
    ∧ ((urlBody t c env).1.triggers =
        if (urlBody t c env).2.2.2 = true then insertA t.triggers c ()
        else t.triggers)
    ∧ ((urlBody t c env).2.2.1.count (Event.unlock c) = 0) := by
  rcases env with ⟨resp, dec, st, up, upl, fin⟩
  cases resp with
  | none => simp [urlBody]
  | some r =>
      cases dec with
      | false => simp [urlBody]
      | true =>
          by_cases h0 : r.contentLength.getD 0 = 0
          · simp [urlBody, h0]
          · by_cases h1 : sizeLimit < r.contentLength.getD 0
            · simp [urlBody, h0, h1]
            · cases st with
              | false => simp [urlBody, h0, h1]
              | true =>
                  cases up with
                  | false =>
                      simp [urlBody, h0, h1, List.count_eq_zero]
                      intro hmem
                      rcases List.mem_map.1 (List.mem_of_mem_take hmem)
                        with ⟨n, _, hn⟩
                      simp at hn
                  | true =>
                      cases fin with
                      | false =>
                          simp [urlBody, h0, h1, List.count_eq_zero,
                            List.mem_map]
                      | true =>
                          simp [urlBody, h0, h1, List.count_eq_zero,
                            List.mem_map]

/-- C8: releasing a chat's lease is idempotent and a no-op when no lease is
present, and every exit path of `handle_url` past a successful acquisition —
completion, rejection, error, or a cancellation-induced upload failure —
ends with the lock, the initiator record and the cancel trigger all absent,
the deferred unlock having run exactly once. -/
theorem lease_release_all_paths (s : BotState) (chat senderId : Int)
    (env : Env) (hfree : chat ∉ s.locks)
    (htrig : lookupA s.triggers chat = none) :
    chat ∉ (handle_url s chat (some senderId) env).1.locks
    ∧ lookupA (handle_url s chat (some senderId) env).1.started_by chat = none
    ∧ lookupA (handle_url s chat (some senderId) env).1.triggers chat = none
    ∧ (handle_url s chat (some senderId) env).2.2.count (Event.unlock chat) = 1
    ∧ (∀ t c, release (release t c) c = release t c)
    ∧ (∀ t c, c ∉ t.locks → lookupA t.started_by c = none → release t c = t) := by
  have hacq : (acquire s chat senderId).2 = true := by
    simp [acquire, setInsert, hfree]
  have htr1 : (acquire s chat senderId).1.triggers = s.triggers := by
    simp [acquire, setInsert, hfree]
  have hB := urlBody_spec (acquire s chat senderId).1 chat env
  refine ⟨?_, ?_, ?_, ?_, ?_, ?_⟩
  · simp only [handle_url, hacq, Bool.true_eq_false, if_false, release]
    exact setRemove_not_mem _ _
  · simp only [handle_url, hacq, Bool.true_eq_false, if_false, release]
    exact lookupA_removeA _ _
  · simp only [handle_url, hacq, Bool.true_eq_false, if_false, release]
    by_cases hreg : (urlBody (acquire s chat senderId).1 chat env).2.2.2 = true
    · rw [if_pos hreg]
      exact lookupA_removeA _ _
    · rw [if_neg hreg]
      have h3 := hB.2.2.1
      rw [if_neg hreg] at h3
      rw [h3, htr1]
      exact htrig
  · simp only [handle_url, hacq, Bool.true_eq_false, if_false,
      List.count_append]
    rw [hB.2.2.2]
    by_cases hreg : (urlBody (acquire s chat senderId).1 chat env).2.2.2 = true
    · simp [hreg]
    · simp [hreg]
  · intro t c
    cases t with
    | mk lk sb tg => simp [release, setRemove_idem, removeA_idem]
  · intro t c h1 h2
    cases t with
    | mk lk sb tg =>
        simp only [release]
        rw [setRemove_of_not_mem lk c h1, removeA_of_lookupA_none sb c h2]

/-- C2: the declared length is `content-length` defaulting to 0 when absent
(bot.rs:208); after a successful acquisition and name decoding, a declared
length of 0 is rejected as empty, one strictly above `2 * 1024^3` is rejected
as too large — in both cases before any body chunk is transferred — and a
length of exactly `2 * 1024^3` passes both checks. -/
theorem length_validation (s : BotState) (chat senderId : Int) (env : Env)
    (r : HttpResponse) (hresp : env.response = some r)
    (hdec : env.decodeOk = true) (hfree : chat ∉ s.locks) :
    (r.contentLength.getD 0 = 0 →
      (handle_url s chat (some senderId) env).2.1 = UrlOutcome.rejectedEmpty
      ∧ ((handle_url s chat (some senderId) env).2.2.all
          fun e => ! isChunk e) = true)
    ∧ (sizeLimit < r.contentLength.getD 0 →
      (handle_url s chat (some senderId) env).2.1 = UrlOutcome.rejectedTooLarge
      ∧ ((handle_url s chat (some senderId) env).2.2.all
          fun e => ! isChunk e) = true)
    ∧ (r.contentLength.getD 0 = sizeLimit →
      (handle_url s chat (some senderId) env).2.1 ≠ UrlOutcome.rejectedEmpty
      ∧ (handle_url s chat (some senderId) env).2.1 ≠ UrlOutcome.rejectedTooLarge)
    ∧ (r.contentLength = none →
      (handle_url s chat (some senderId) env).2.1 = UrlOutcome.rejectedEmpty) := by
  have hacq : (acquire s chat senderId).2 = true := by
    simp [acquire, setInsert, hfree]
  refine ⟨?_, ?_, ?_, ?_⟩
  · intro h0
    constructor
    · simp [handle_url, hacq, urlBody, hresp, hdec, h0]
    · simp [handle_url, hacq, urlBody, hresp, hdec, h0, isChunk]
  · intro h1
    have h0 : ¬ r.contentLength.getD 0 = 0 := by omega
    constructor
    · simp [handle_url, hacq, urlBody, hresp, hdec, h0, h1]
    · simp [handle_url, hacq, urlBody, hresp, hdec, h0, h1, isChunk]
  · intro heq
    have h0 : ¬ r.contentLength.getD 0 = 0 := by
      rw [heq]; decide
    have h1 : ¬ sizeLimit < r.contentLength.getD 0 := by omega
    cases hst : env.statusOk with
    | false =>
        constructor
        · simp [handle_url, hacq, urlBody, hresp, hdec, h0, h1, hst]
        · simp [handle_url, hacq, urlBody, hresp, hdec, h0, h1, hst]
    | true =>
        cases hup : env.uploadOk with
        | false =>
            constructor
            · simp [handle_url, hacq, urlBody, hresp, hdec, h0, h1, hst, hup]
            · simp [handle_url, hacq, urlBody, hresp, hdec, h0, h1, hst, hup]
        | true =>
            cases hfin : env.finalOk with
            | false =>
                constructor
                · simp [handle_url, hacq, urlBody, hresp, hdec, h0, h1, hst,
                    hup, hfin]
                · simp [handle_url, hacq, urlBody, hresp, hdec, h0, h1, hst,
                    hup, hfin]
            | true =>
                constructor
                · simp [handle_url, hacq, urlBody, hresp, hdec, h0, h1, hst,
                    hup, hfin]
                · simp [handle_url, hacq, urlBody, hresp, hdec, h0, h1, hst,
                    hup, hfin]
  · intro hnone
    simp [handle_url, hacq, urlBody, hresp, hdec, hnone]

/-- C6: a cancel request whose requester differs from the recorded initiator
is answered with the ephemeral unauthorized alert only: the returned state is
the input state (lock set, initiator record and trigger untouched) and no
trigger fires. -/
theorem cancel_unauthorized_no_change (s : BotState) (chat requester owner : Int)
    (hown : lookupA s.started_by chat = some owner) (hne : owner ≠ requester) :
    handle_cancel s chat requester =
      (s, CancelOutcome.unauthorized, [Event.alertUnauthorized chat requester]) := by
  simp [handle_cancel, hown, hne]

/-- C7: a cancel on a chat with no recorded initiator returns without
mutating anything; an owner cancel on a registered lease fires the trigger
exactly once, and a repeated cancel afterwards is a no-op that mutates
nothing and fires nothing. -/
theorem cancel_notfound_and_one_shot (s : BotState) (chat requester : Int) :
    (lookupA s.started_by chat = none →
      handle_cancel s chat requester = (s, CancelOutcome.notFound, []))
    ∧ (lookupA s.started_by chat = some requester →
      ∀ t : Unit, lookupA s.triggers chat = some t →
        (handle_cancel s chat requester).2.1 = CancelOutcome.cancelled
        ∧ (handle_cancel s chat requester).2.2.count (Event.fireTrigger chat) = 1
        ∧ handle_cancel (handle_cancel s chat requester).1 chat requester =
            ((handle_cancel s chat requester).1, CancelOutcome.notFound, [])) := by
  constructor
  · intro hnone
    simp [handle_cancel, hnone]
  · intro hown t htrig
    have hres : handle_cancel s chat requester =
        ({ s with triggers := removeA s.triggers chat,
                  started_by := removeA s.started_by chat },
         CancelOutcome.cancelled,
         [Event.fireTrigger chat, Event.editCancelled chat,
          Event.answerCallback chat]) := by
      simp [handle_cancel, hown, htrig]
    refine ⟨by rw [hres], by rw [hres]; simp, ?_⟩
    rw [hres]
    simp [handle_cancel, lookupA_removeA]

/-- C4: in the relay trace of a transfer the progress counter is advanced by
a chunk's size only after that chunk's delivery, so at every observation
point (every prefix of the trace) the counter is at most the bytes delivered
to the sink. -/
theorem relay_counter_not_ahead (chunks : List Nat) (k : Nat) :
    counterAt ((relayTrace chunks).take k)
      ≤ deliveredAt ((relayTrace chunks).take k) := by
  induction chunks generalizing k with
  | nil => simp [relayTrace, counterAt, deliveredAt]
  | cons n rest ih =>
      match k with
      | 0 => simp [counterAt, deliveredAt]
      | 1 => simp [relayTrace, counterAt, deliveredAt]
      | Nat.succ (Nat.succ k) =>
          simp only [relayTrace, List.take_succ_cons, counterAt, deliveredAt]
          exact Nat.add_le_add_left (ih k) n

theorem counterAt_take_le (t : List RelayEvent) (k : Nat) :
    counterAt (t.take k) ≤ counterAt t := by
  induction t generalizing k with
  | nil => simp
  | cons e rest ih =>
      match k with
      | 0 => simp [counterAt]
      | Nat.succ k =>
          cases e with
          | deliver n => simpa [counterAt] using ih k
          | advance n =>
              simp only [List.take_succ_cons, counterAt]
              exact Nat.add_le_add_left (ih k) n

theorem counterAt_relayTrace (chunks : List Nat) :
    counterAt (relayTrace chunks) = chunks.sum := by
  induction chunks with
  | nil => simp [relayTrace, counterAt]
  | cons n rest ih => simp [relayTrace, counterAt, ih]

/-- C5: when the source body holds at most the declared number of bytes, the
tally shown by the reporter never exceeds the declared total, at every
observation point of the relay. -/
theorem relay_counter_le_declared (chunks : List Nat) (total k : Nat)
    (hsum : chunks.sum ≤ total) :
    counterAt ((relayTrace chunks).take k) ≤ total :=
  le_trans (counterAt_take_le (relayTrace chunks) k)
    (le_trans (le_of_eq (counterAt_relayTrace chunks)) hsum)

/-- C10: messages in chats that are neither user nor group chats are ignored
entirely; a message that is no recognized command (no command at all, or an
unrecognized name with no addressee) but parses as a URL starts the upload in
a user chat and is ignored in a group chat. -/
theorem url_routing (me : Option (List Char)) (isUrl : List Char → Bool)
    (text : List Char) :
    (handle_message me isUrl ChatKind.channel text = Action.nop)
    ∧ (parse_command text = none → isUrl text = true →
        handle_message me isUrl ChatKind.user text = Action.doUpload text)
    ∧ (parse_command text = none →
        handle_message me isUrl ChatKind.group text = Action.nop)
    ∧ (∀ cmd, parse_command text = some cmd → cmd.via = none →
        cmd.name ≠ ("start").toList → cmd.name ≠ ("upload").toList →
        (isUrl text = true →
          handle_message me isUrl ChatKind.user text = Action.doUpload text)
        ∧ handle_message me isUrl ChatKind.group text = Action.nop) := by
  refine ⟨rfl, ?_, ?_, ?_⟩
  · intro hp hu
    simp [handle_message, hp, urlFallback, hu]
  · intro hp
    simp [handle_message, hp, urlFallback]
  · intro cmd hp hvia hn1 hn2
    have e1 : ("start").toList = [ 's', 't', 'a', 'r', 't' ] := rfl
    have e2 : ("upload").toList = [ 'u', 'p', 'l', 'o', 'a', 'd' ] := rfl
    rw [e1] at hn1
    rw [e2] at hn2
    constructor
    · intro hu
      simp [handle_message, hp, viaMismatch, hvia, hn1, hn2, urlFallback, hu]
    · simp [handle_message, hp, viaMismatch, hvia, hn1, hn2, urlFallback]

/-! ## Witnesses evaluating the theorems at concrete inputs -/

/-- Witness for `parse_command_correct` at a concrete command string. -/
theorem parse_command_correct_witness :
    parse_command ('/' :: ("echo@MyBot hi").toList) =
      some { name := ("echo").toList, via := some (("MyBot").toList),
             arg := some (("hi").toList) } :=
  ((parse_command_correct ('/' :: ("echo@MyBot hi").toList)).2
    (("echo@MyBot hi").toList)).trans (by decide)

/-- Witness for `acquire_race_exclusive`: three requests race on chat 1. -/
theorem acquire_race_exclusive_witness :
    ((raceAcquire ⟨[], [], []⟩ 1 [10, 20, 30]).2.count true = 1)
    ∧ ((raceAcquire ⟨[], [], []⟩ 1 [10, 20, 30]).1.locks.count 1 ≤ 1) :=
  ⟨(acquire_race_exclusive ⟨[], [], []⟩ 1 [10, 20, 30]
      (by decide) (by decide) (by decide)).1,
    (acquire_race_exclusive ⟨[], [], []⟩ 1 [10, 20, 30]
      (by decide) (by decide) (by decide)).2.2.2⟩

/-- Witness for `lease_release_all_paths`: a successful 5-byte transfer on
chat 1 leaves no lock and no initiator record. -/
theorem lease_release_all_paths_witness :
    (1 : Int) ∉ (handle_url ⟨[], [], []⟩ 1 (some 7)
      ⟨some ⟨some 5, [2, 3]⟩, true, true, true, 0, true⟩).1.locks
    ∧ lookupA (handle_url ⟨[], [], []⟩ 1 (some 7)
      ⟨some ⟨some 5, [2, 3]⟩, true, true, true, 0, true⟩).1.started_by 1 = none :=
  ⟨(lease_release_all_paths ⟨[], [], []⟩ 1 7
      ⟨some ⟨some 5, [2, 3]⟩, true, true, true, 0, true⟩ (by decide) (by decide)).1,
    (lease_release_all_paths ⟨[], [], []⟩ 1 7
      ⟨some ⟨some 5, [2, 3]⟩, true, true, true, 0, true⟩ (by decide) (by decide)).2.1⟩

/-- Witness for `length_validation`: an absent `content-length` header is
rejected as empty. -/
theorem length_validation_witness :
    (handle_url ⟨[], [], []⟩ 1 (some 7)
      ⟨some ⟨none, []⟩, true, true, true, 0, true⟩).2.1
      = UrlOutcome.rejectedEmpty :=
  (length_validation ⟨[], [], []⟩ 1 7
      ⟨some ⟨none, []⟩, true, true, true, 0, true⟩
      ⟨none, []⟩ rfl rfl (by decide)).2.2.2 rfl

/-- Witness for `cancel_unauthorized_no_change`: user 6 cannot cancel a
transfer started by user 5. -/
theorem cancel_unauthorized_no_change_witness :
    handle_cancel ⟨[1], [(1, 5)], [(1, ())]⟩ 1 6 =
      (⟨[1], [(1, 5)], [(1, ())]⟩, CancelOutcome.unauthorized,
        [Event.alertUnauthorized 1 6]) :=
  cancel_unauthorized_no_change ⟨[1], [(1, 5)], [(1, ())]⟩ 1 6 5
    (by decide) (by decide)

/-- Witness for `cancel_notfound_and_one_shot`: the owner's cancel fires the
trigger once. -/
theorem cancel_notfound_and_one_shot_witness :
    (handle_cancel ⟨[1], [(1, 5)], [(1, ())]⟩ 1 5).2.1 = CancelOutcome.cancelled
    ∧ (handle_cancel ⟨[1], [(1, 5)], [(1, ())]⟩ 1 5).2.2.count
        (Event.fireTrigger 1) = 1 :=
  ⟨((cancel_notfound_and_one_shot ⟨[1], [(1, 5)], [(1, ())]⟩ 1 5).2
      (by decide) () (by decide)).1,
    ((cancel_notfound_and_one_shot ⟨[1], [(1, 5)], [(1, ())]⟩ 1 5).2
      (by decide) () (by decide)).2.1⟩

/-- Witness for `relay_counter_le_declared` on a two-chunk body. -/
theorem relay_counter_le_declared_witness :
    counterAt ((relayTrace [2, 3]).take 3) ≤ 10 :=
  relay_counter_le_declared [2, 3] 10 3 (by decide)

/-- Witness for `url_routing`: a bare URL in a user chat starts the upload. -/
theorem url_routing_witness :
    handle_message none (fun _ => true) ChatKind.user (("https://a/b").toList)
      = Action.doUpload (("https://a/b").toList) :=
  (url_routing none (fun _ => true) (("https://a/b").toList)).2.1
    (by decide) rfl

end Uploader
